import Mathlib

/-!
Verification development for `resistags.py`, a generator of resistor
sticker sheets.  The Python source is shallowly embedded: Python floats
become exact rationals (`ℚ`), XML element trees become the inductive
`Elem`, in-place mutation becomes pure rewriting, and the external
`resistors` library (an external collaborator, not part of the
repository) becomes an explicit function parameter `lib`.
-/

-- Core `Rat` arithmetic is sealed (irreducible) by default; unsealing it
-- lets concrete rational computations be checked by kernel reduction.
unseal Rat.sub Rat.add Rat.mul Rat.inv

/-! ## Python numeric primitives -/

/-- Mathematical floor of a rational, `⌊q⌋`, via flooring integer division. -/
def ratFloor (q : ℚ) : ℤ := q.num.fdiv (q.den : ℤ)

/-- Python `int(x)`: truncation toward zero. -/
def pyInt (q : ℚ) : ℤ := q.num.tdiv (q.den : ℤ)

/-- Python `round(x)` on a real value: round half to even (banker's
rounding).  The Python source applies it to floats; floats are modelled
as exact rationals. -/
def pyRound (q : ℚ) : ℤ :=
  let f : ℤ := ratFloor q
  let r : ℚ := q - (f : ℚ)
  if r < 1/2 then f
  else if 1/2 < r then f + 1
  else if f % 2 = 0 then f else f + 1

/-- Python `x % m` on floats: `x - m * (x // m)` with flooring division
(the result carries the divisor's sign).  Lean's own `%` on `ℚ` is the
field remainder (constantly 0), so the Python behaviour is spelled out. -/
def pyMod (x m : ℚ) : ℚ := x - m * (ratFloor (x / m) : ℚ)

/-- Decimal digits of `n`, least significant first; fuel-structured so the
kernel can evaluate it (`fuel` bounds the digit count). -/
def natDigitsRev : ℕ → ℕ → List ℕ
  | 0, _ => []
  | _ + 1, 0 => []
  | fuel + 1, n => n % 10 :: natDigitsRev fuel (n / 10)

/-- Python `[int(d) for d in str(n)]` for a nonnegative integer `n`:
decimal digits, most significant first, with `0 ↦ [0]`.  (Every call in
the source passes a nonnegative value; a negative value would crash
Python on the `'-'` character, so the embedding just takes `toNat`.) -/
def pyDigits (n : ℤ) : List ℕ :=
  if n.toNat = 0 then [0] else (natDigitsRev n.toNat n.toNat).reverse

/-- The `while len(digits) < k: digits.insert(0, 0)` padding loop. -/
def padTo (k : ℕ) (l : List ℕ) : List ℕ := List.replicate (k - l.length) 0 ++ l

/-! ## Python string primitives (kernel-computable stand-ins) -/

/-- Python `str.replace(".0 ", " ")`, specialised to the fixed pattern the
source uses: every (leftmost, non-overlapping) occurrence is replaced. -/
def replaceDot0Aux : List Char → List Char
  | '.' :: '0' :: ' ' :: cs => ' ' :: replaceDot0Aux cs
  | c :: cs => c :: replaceDot0Aux cs
  | [] => []

def replaceDot0 (s : String) : String := String.mk (replaceDot0Aux s.data)

def isPySpace (c : Char) : Bool :=
  c = ' ' || c = '\t' || c = '\n' || c = '\x0d' || c = '\x0b' || c = '\x0c'

def dropLeadingSpace : List Char → List Char
  | [] => []
  | c :: cs => if isPySpace c then dropLeadingSpace cs else c :: cs

/-- Python `str.strip()`: whitespace removed from both ends. -/
def pyStrip (s : String) : String :=
  String.mk ((dropLeadingSpace (dropLeadingSpace s.data.reverse).reverse.reverse).reverse)

/-- Smallest `k ≤ fuel` (searched from `start`) with `d ∣ 10 ^ k`. -/
def decExpAux (d : ℕ) : ℕ → ℕ → Option ℕ
  | 0, _ => none
  | fuel + 1, k => if d ∣ 10 ^ k then some k else decExpAux d fuel (k + 1)

def zeroPadLeft (k : ℕ) (s : List Char) : List Char :=
  List.replicate (k - s.length) '0' ++ s

/-- Python `str(x)` / `repr(x)` for a float: the shortest decimal string.
Floats that arise in this program are exact decimal fractions, rendered
as `intpart.fracpart` with no trailing zeros (and `n.0` for whole
values), which is exactly Python's shortest round-trip repr for them.
The `none` fallback (a rational whose denominator is not of the form
`2^a * 5^b`, impossible for a binary float) renders as `num/den`. -/
def pyFloatRepr (q : ℚ) : String :=
  let sign := if q < 0 then "-" else ""
  let a : ℚ := if q < 0 then -q else q
  match decExpAux a.den 64 0 with
  | some 0 => sign ++ toString a.num ++ ".0"
  | some (k + 1) =>
      let scaled : ℕ := a.num.toNat * 10 ^ (k + 1) / a.den
      sign ++ toString (scaled / 10 ^ (k + 1)) ++ "." ++
        String.mk (zeroPadLeft (k + 1) (toString (scaled % 10 ^ (k + 1))).data)
  | none => sign ++ toString a.num ++ "/" ++ toString a.den

/-- Python `f"{x:.1f}"`: fixed one decimal place, rounding half to even. -/
def formatFixed1 (q : ℚ) : String :=
  let t := pyRound (q * 10)
  let sign := if t < 0 then "-" else ""
  let n := t.natAbs
  sign ++ toString (n / 10) ++ "." ++ toString (n % 10)

def strLower (s : String) : String := String.mk (s.data.map Char.toLower)

/-! ## `format_value` (source lines 46–59) -/

def format_value (ohms : ℚ) : String :=
  if ohms ≥ 1000000 then
    if ohms = 1000000 then "1 MΩ"
    else replaceDot0 (formatFixed1 (ohms / 1000000) ++ " MΩ")
  else if ohms ≥ 1000 then
    if pyMod ohms 1000 = 0 then toString (ratFloor (ohms / 1000)) ++ " kΩ"
    else replaceDot0 (formatFixed1 (ohms / 1000) ++ " kΩ")
  else if ohms < 1 then pyFloatRepr ohms ++ " Ω"
  else if ohms = (pyInt ohms : ℚ) then toString (pyInt ohms) ++ " Ω"
  else pyFloatRepr ohms ++ " Ω"

/-! ## Color tables (source lines 12–25, 69–72) -/

def COLOR_HEX : List (String × String) :=
  [("black", "000000"), ("brown", "784421"), ("red", "ff0000"),
   ("orange", "ff6600"), ("yellow", "ffff00"), ("green", "00c400"),
   ("blue", "0055d4"), ("violet", "8f37c8"), ("grey", "828282"),
   ("white", "dbdbdb"), ("gold", "decd87"), ("silver", "c0c0c0")]

/-- Source line 69–70, `tolerance_colors.get(tolerance, "brown")`: a lookup
with a silent `"brown"` default. -/
def tolerance_color (tolerance : ℚ) : String :=
  (([((1 : ℚ), "brown"), (5, "gold"), (10, "silver")]).lookup tolerance).getD "brown"

def digit_colors : List String :=
  ["black", "brown", "red", "orange", "yellow", "green", "blue", "violet", "grey", "white"]

/-! ## `get_subohm_colors` (source lines 62–120) -/

/-- The `ohms < 10` body of `get_subohm_colors` (lines 74–116): centiohm
encoding with a silver/grey multiplier. -/
def subohm_low (ohms tolerance : ℚ) (num_bands : ℕ) : List String :=
  let tc := tolerance_color tolerance
  let centiohms : ℤ := pyRound (ohms * 100)
  let digits := pyDigits centiohms
  let multiplier :=
    if ohms < 1 then "silver"
    else if ohms = (pyInt ohms : ℚ) then "silver"
    else "grey"
  if num_bands = 5 then
    let ds := padTo 3 digits
    [digit_colors.getD (ds.getD 0 0) "", digit_colors.getD (ds.getD 1 0) "",
     digit_colors.getD (ds.getD 2 0) "", multiplier, tc]
  else
    let ds := padTo 2 digits
    [digit_colors.getD (ds.getD 0 0) "", digit_colors.getD (ds.getD 1 0) "",
     multiplier, tc]

/-- Source `get_subohm_colors` (lines 62–120).  The `ohms ≥ 10` arm delegates to
the external `resistors` library, passed explicitly as `lib` (it receives
`int(ohms)`, the tolerance, and the band count, exactly as on line 119). -/
def get_subohm_colors (lib : ℤ → ℚ → ℕ → List String)
    (ohms tolerance : ℚ) (num_bands : ℕ) : List String :=
  if ohms < 10 then subohm_low ohms tolerance num_bands
  else lib (pyInt ohms) tolerance num_bands

/-- A trivial stand-in library used to instantiate `lib` in closed tests. -/
def libStub : ℤ → ℚ → ℕ → List String := fun _ _ _ => []


/-! ## `set_rect_fill` (source lines 123–124)

`re.sub(r"fill:#[0-9a-fA-F]+", f"fill:#{hex_fill}", style_attr, count=1)`:
the leftmost occurrence of `fill:#` followed by at least one hex digit has
its digit run replaced by `hex_fill`; everything else is untouched. -/

def isHexDig (c : Char) : Bool :=
  c.isDigit || ('a' ≤ c && c ≤ 'f') || ('A' ≤ c && c ≤ 'F')

/-- Does this suffix (the text after an `'f'`) begin `ill:#` plus a hex digit? -/
def fillMatchAt : List Char → Bool
  | 'i' :: 'l' :: 'l' :: ':' :: '#' :: d :: _ => isHexDig d
  | _ => false

def fillSub (hex : List Char) : List Char → List Char
  | [] => []
  | c :: cs =>
      if c = 'f' && fillMatchAt cs then
        'f' :: 'i' :: 'l' :: 'l' :: ':' :: '#' :: (hex ++ (cs.drop 5).dropWhile isHexDig)
      else c :: fillSub hex cs

def set_rect_fill (style_attr hex_fill : String) : String :=
  String.mk (fillSub hex_fill.data style_attr.data)

/-! ## The element-tree model

`xml.etree.ElementTree.Element`: a tag, an ordered attribute dictionary
(insertion order preserved, as in Python), optional text and tail, and a
list of children. -/

inductive Elem where
  | mk (tag : String) (attrib : List (String × String)) (text tail : Option String)
      (children : List Elem)

def Elem.tagOf : Elem → String
  | .mk t _ _ _ _ => t

def Elem.attribOf : Elem → List (String × String)
  | .mk _ a _ _ _ => a

def Elem.textOf : Elem → Option String
  | .mk _ _ tx _ _ => tx

def Elem.tailOf : Elem → Option String
  | .mk _ _ _ tl _ => tl

def Elem.childrenOf : Elem → List Elem
  | .mk _ _ _ _ cs => cs

/-- Python dict assignment on the attribute map: replace in place if the
key exists (keeping its position), else append. -/
def setA (k v : String) : List (String × String) → List (String × String)
  | [] => [(k, v)]
  | (k₂, v₂) :: rest => if k₂ = k then (k, v) :: rest else (k₂, v₂) :: setA k v rest

def Elem.attr (e : Elem) (k : String) : Option String := e.attribOf.lookup k

def Elem.setAttr (e : Elem) (k v : String) : Elem :=
  match e with
  | .mk t a tx tl cs => .mk t (setA k v a) tx tl cs

/-- The fully-qualified attribute key `{inkscape namespace}label`. -/
def INKSCAPE_LABEL_KEY : String :=
  "\x7bhttp://www.inkscape.org/namespaces/inkscape\x7dlabel"

def TSPAN_TAG : String := "\x7bhttp://www.w3.org/2000/svg\x7dtspan"

def SVG_G_TAG : String := "\x7bhttp://www.w3.org/2000/svg\x7dg"

/-- Source `get_label` (lines 127–128). -/
def get_label (el : Elem) : Option String := el.attr INKSCAPE_LABEL_KEY

/-- Source `set_label` (lines 131–132). -/
def set_label (el : Elem) (label : String) : Elem := el.setAttr INKSCAPE_LABEL_KEY label

/-- Source `deep_copy_element` (lines 135–141) rebuilds the tree node by
node so that instances never share mutable state.  Values of a pure
embedding are immutable, so the clone of a value is the value itself. -/
def deep_copy_element (el : Elem) : Elem := el

/-! ## `uniquify_ids` (source lines 144–149)

For each child (by index `i` in its parent), a truthy `id` attribute is
rewritten to `{prefix}_{i}_{old_id}`, and the rewrite recurses into the
child.  Note the element passed in at the top keeps its own `id`. -/

def rewriteIdAttr (pfx : String) (i : ℕ) (a : List (String × String)) :
    List (String × String) :=
  match a.lookup "id" with
  | some oldId =>
      if oldId = "" then a
      else setA "id" (pfx ++ "_" ++ toString i ++ "_" ++ oldId) a
  | none => a

mutual
def uniquifyNode (pfx : String) (i : ℕ) : Elem → Elem
  | .mk t a tx tl cs => .mk t (rewriteIdAttr pfx i a) tx tl (uniquifyKids pfx 0 cs)

def uniquifyKids (pfx : String) (i : ℕ) : List Elem → List Elem
  | [] => []
  | c :: cs => uniquifyNode pfx i c :: uniquifyKids pfx (i + 1) cs
end

def uniquify_ids (parent : Elem) (pfx : String) : Elem :=
  match parent with
  | .mk t a tx tl cs => .mk t a tx tl (uniquifyKids pfx 0 cs)

-- All `id` attribute values in a tree, in document (preorder) order.
mutual
def collectIds : Elem → List String
  | .mk _ a _ _ cs =>
      (match a.lookup "id" with | some v => [v] | none => []) ++ collectIdsKids cs

def collectIdsKids : List Elem → List String
  | [] => []
  | c :: cs => collectIds c ++ collectIdsKids cs
end

/-! ## Text-substitution helpers of the instantiation loop -/

/-- Python truthiness of an optional string. -/
def truthyS : Option String → Bool
  | none => false
  | some s => s != ""

/-- Source check `tspan.text and re.match(r"^[\d.]+$", tspan.text.strip())`. -/
def textMatchesNumeric (tx : Option String) : Bool :=
  match tx with
  | none => false
  | some t =>
      (t != "") &&
      (let s := pyStrip t
       (s != "") && s.data.all (fun c => c.isDigit || c = '.'))

-- The `t_tolerance` branch (source lines 377–382): walk the `tspan`
-- descendants in document order and overwrite the first truthy text.
mutual
def tolVisit (tt : String) : Elem → Bool → Elem × Bool
  | e, false => (e, false)
  | .mk t a tx tl cs, true =>
      if t = TSPAN_TAG && truthyS tx then (.mk t a (some tt) tl cs, false)
      else
        let p := tolVisitKids tt cs true
        (.mk t a tx tl p.1, p.2)

def tolVisitKids (tt : String) : List Elem → Bool → List Elem × Bool
  | [], go => ([], go)
  | c :: cs, go =>
      let p := tolVisit tt c go
      let q := tolVisitKids tt cs p.2
      (p.1 :: q.1, q.2)
end

def rewrite_first_tspan_text (node : Elem) (tt : String) : Elem :=
  (tolVisit tt node true).1

mutual
def elemSizeN : Elem → ℕ
  | .mk _ _ _ _ cs => 1 + elemListSizeN cs

def elemListSizeN : List Elem → ℕ
  | [] => 0
  | c :: cs => elemSizeN c + elemListSizeN cs
end

/-- The inner `for sub in tspan:` loop of the `t_value` branch (source
lines 393–400): direct children get their `x` overwritten when present,
and the first numeric-texted one gets the value text, its truthy tail
cleared, and stops the inner loop. -/
def processSubs (v vt : String) : List Elem → List Elem
  | [] => []
  | s :: rest =>
      let s1 := if (s.attr "x").isSome then s.setAttr "x" v else s
      if textMatchesNumeric s1.textOf then
        (match s1 with
         | .mk t a _ tl cs =>
             Elem.mk t a (some vt) (if truthyS tl then some "" else tl) cs) :: rest
      else s1 :: processSubs v vt rest

-- The outer `for tspan in node.iter(tspan):` loop of the `t_value`
-- branch (source lines 386–400), over the live (already mutated) tree in
-- document order.  `fuel` bounds the recursion depth; callers pass the
-- node count, which exceeds the tree depth, so the bound is never hit.
mutual
def tvVisit (v vt : String) : ℕ → Elem → Bool → Elem × Bool
  | 0, e, go => (e, go)
  | _ + 1, e, false => (e, false)
  | fuel + 1, .mk t a tx tl cs, true =>
      if t = TSPAN_TAG then
        let a1 := if (a.lookup "x").isSome then setA "x" v a else a
        if textMatchesNumeric tx then (.mk t a1 (some vt) (some "") cs, false)
        else
          let cs1 := processSubs v vt cs
          let p := tvVisitKids v vt fuel cs1 true
          (.mk t a1 tx tl p.1, p.2)
      else
        let p := tvVisitKids v vt fuel cs true
        (.mk t a tx tl p.1, p.2)
  termination_by f _ _ => (f, 0)

def tvVisitKids (v vt : String) : ℕ → List Elem → Bool → List Elem × Bool
  | _, [], go => ([], go)
  | fuel, c :: cs, go =>
      let p := tvVisit v vt fuel c go
      let q := tvVisitKids v vt fuel cs p.2
      (p.1 :: q.1, q.2)
  termination_by f l _ => (f, l.length + 1)
end

/-- The `t_value` branch (source lines 383–400): the node's `x` is set to
the right-alignment anchor, then the `tspan` walk substitutes the value
text. -/
def rewrite_value_text (node : Elem) (vxs vt : String) : Elem :=
  let n1 := node.setAttr "x" vxs
  (tvVisit vxs vt (elemSizeN n1) n1 true).1

/-! ## Per-child instantiation (source lines 350–403) -/

def fillIfStyled (node : Elem) (hex : String) : Elem :=
  match node.attr "style" with
  | some s => node.setAttr "style" (set_rect_fill s hex)
  | none => node

/-- The body of the `for child in sticker_children:` loop for one child:
the branch dispatch on the inkscape label (source lines 350–400).
`none` models the `continue` that skips `t_color_4` for 4-band
resistors; every other path falls through to append. -/
def process_child (hexes : List String) (num_bands : ℕ) (tolerance : ℚ)
    (value_text value_right_x_str : String) (child : Elem) : Option Elem :=
  let node := deep_copy_element child
  let label := get_label node
  if (label = some "t_color_1" ∨ label = some "r_color_1") ∧ 0 < hexes.length then
    some (fillIfStyled node (hexes.getD 0 ""))
  else if label = some "t_color_2" ∧ 1 < hexes.length then
    some (fillIfStyled node (hexes.getD 1 ""))
  else if label = some "t_color_3" ∧ 2 < hexes.length then
    some (fillIfStyled node (hexes.getD 2 ""))
  else if label = some "t_color_4" ∧ 3 < hexes.length then
    if num_bands = 4 then none
    else some (fillIfStyled node (hexes.getD 3 ""))
  else if label = some "t_color_tolerance" then
    if num_bands = 4 then
      some (if 3 < hexes.length then fillIfStyled node (hexes.getD 3 "") else node)
    else
      some (if 4 < hexes.length then fillIfStyled node (hexes.getD 4 "") else node)
  else if label = some "t_tolerance" then
    let tolerance_text :=
      if tolerance = (pyInt tolerance : ℚ) then "±" ++ toString (pyInt tolerance)
      else "±" ++ pyFloatRepr tolerance
    some (rewrite_first_tspan_text node tolerance_text)
  else if label = some "t_value" then
    some (rewrite_value_text node value_right_x_str value_text)
  else some node

/-- One child processed and, when kept, id-uniquified and appended
(source lines 402–403). -/
def instantiate_children (hexes : List String) (num_bands : ℕ) (tolerance : ℚ)
    (value_text value_right_x_str pfx : String) (children : List Elem) : List Elem :=
  children.filterMap fun c =>
    (process_child hexes num_bands tolerance value_text value_right_x_str c).map
      fun n => uniquify_ids n pfx

/-! ## Layout constants and the generation loop (source lines 34–43, 281–410) -/

def COLS : ℕ := 5
def STICKER_W : ℚ := 23
def STICKER_H : ℚ := 12
def SPACING_X : ℚ := STICKER_W + 3
def SPACING_Y : ℚ := STICKER_H + 3
def MARGIN_LEFT : ℚ := 0
def MARGIN_TOP : ℚ := 0

/-- One sticker group for value `ohms` at linear index `idx` (the loop
body, source lines 325–403). -/
def sticker_group (lib : ℤ → ℚ → ℕ → List String) (tolerance : ℚ) (num_bands : ℕ)
    (scale_x scale_y template_min_x template_min_y value_right_x : ℚ)
    (sticker_children : List Elem) (idx : ℕ) (ohms : ℚ) : Elem :=
  let row := idx / COLS
  let col := idx % COLS
  let tx := MARGIN_LEFT + (col : ℚ) * SPACING_X
  let ty := MARGIN_TOP + (row : ℚ) * SPACING_Y
  let colors :=
    if ohms < 10 then get_subohm_colors lib ohms tolerance num_bands
    else lib (pyInt ohms) tolerance num_bands
  let hexes := colors.map fun c => ((COLOR_HEX.lookup (strLower c)).getD "000000")
  let value_text := pyStrip (format_value ohms)
  let adjusted_tx := tx - template_min_x * scale_x
  let adjusted_ty := ty - template_min_y * scale_y
  let transformStr := "translate(" ++ pyFloatRepr adjusted_tx ++ "," ++
    pyFloatRepr adjusted_ty ++ ") scale(" ++ pyFloatRepr scale_x ++ "," ++
    pyFloatRepr scale_y ++ ")"
  let pfx := "sticker" ++ toString idx
  Elem.mk SVG_G_TAG
    [("id", "sticker_" ++ toString idx), ("transform", transformStr),
     (INKSCAPE_LABEL_KEY, value_text)]
    none none
    (instantiate_children hexes num_bands tolerance value_text
      (pyFloatRepr value_right_x) pfx sticker_children)

/-- The pure core of `generate_stickers` (source lines 281–403): template
parsing, metric extraction and fallback defaulting (lines 292–313) are
taken as the already-resolved parameters; the working layer is cleared,
re-tagged `stickers`/`Stickers`, and refilled with one group per value. -/
def generate_stickers_layer (lib : ℤ → ℚ → ℕ → List String) (layer : Elem)
    (values : List ℚ) (tolerance : ℚ)
    (template_w template_h template_min_x template_min_y value_right_x : ℚ) : Elem :=
  let sticker_children := layer.childrenOf
  let scale_x := STICKER_W / template_w
  let scale_y := STICKER_H / template_h
  let num_bands := if tolerance = 1 then 5 else 4
  Elem.mk layer.tagOf [("id", "stickers"), (INKSCAPE_LABEL_KEY, "Stickers")] none none
    (values.enum.map fun p =>
      sticker_group lib tolerance num_bands scale_x scale_y template_min_x
        template_min_y value_right_x sticker_children p.1 p.2)

def demoChild : Elem :=
  Elem.mk "rect" [("id", "r1"), (INKSCAPE_LABEL_KEY, "t_color_1"),
    ("style", "fill:#000000;stroke:none")] none none
    [Elem.mk "rect" [("id", "inner1")] none none []]

def demoLayer : Elem := Elem.mk SVG_G_TAG [("id", "layer1")] none none [demoChild]

def demoDoc : Elem := generate_stickers_layer libStub demoLayer [1, 2] 1 23 12 0 0 28


/-! ## Grid position (source lines 326–329) -/

/-- The per-index grid placement computed at the top of the generation
loop (source lines 326–329): `row = idx // COLS`, `col = idx % COLS`,
`tx = MARGIN_LEFT + col * SPACING_X`, `ty = MARGIN_TOP + row * SPACING_Y`. -/
def sticker_position (idx : ℕ) : ℚ × ℚ :=
  (MARGIN_LEFT + ((idx % COLS : ℕ) : ℚ) * SPACING_X,
   MARGIN_TOP + ((idx / COLS : ℕ) : ℚ) * SPACING_Y)

/-- Modelled from the spec (§4.3 Grid Layout Planner): `position(index,
columns, cellSpacingX, cellSpacingY, marginLeft, marginTop) -> (x, y)`
with `x = marginLeft + (index mod columns) * cellSpacingX` and
`y = marginTop + (index div columns) * cellSpacingY`. -/
def spec_position (index columns : ℕ)
    (cellSpacingX cellSpacingY marginLeft marginTop : ℚ) : ℚ × ℚ :=
  (marginLeft + ((index % columns : ℕ) : ℚ) * cellSpacingX,
   marginTop + ((index / columns : ℕ) : ℚ) * cellSpacingY)

/-! ## `parse_path_bounding_box` (source lines 152–211)

The function receives the `d` attribute string and splits it with
`re.findall(r'([MLHVmlhvzZ])([^MLHVmlhvzZ]*)', d)` into (command letter,
argument numbers) pairs; that purely lexical split is taken here as the
input `parts : List (Char × List ℚ)`, and the state machine over it
(lines 173–211) is embedded as written — including the `elif cmd == 'h'`
and `elif cmd == 'v'` arms that are unreachable because
`cmd.upper() == 'H'` / `'V'` already matched the lowercase letters. -/

def qmin (a b : ℚ) : ℚ := if b < a then b else a

def qmax (a b : ℚ) : ℚ := if a < b then b else a

/-- Python `min` over a nonempty list (0 for the empty list, unused). -/
def listMin : List ℚ → ℚ
  | [] => 0
  | x :: xs => xs.foldl qmin x

/-- Python `max` over a nonempty list (0 for the empty list, unused). -/
def listMax : List ℚ → ℚ
  | [] => 0
  | x :: xs => xs.foldl qmax x

def parse_path_step (st : (ℚ × ℚ) × List ℚ × List ℚ) (p : Char × List ℚ) :
    (ℚ × ℚ) × List ℚ × List ℚ :=
  let cx := st.1.1
  let cy := st.1.2
  let xs := st.2.1
  let ys := st.2.2
  let cmd := p.1
  let numbers := p.2
  if cmd.toUpper = 'Z' then st
  else if cmd.toUpper = 'M' ∨ cmd.toUpper = 'L' then
    match numbers with
    | nx :: ny :: _ => ((nx, ny), xs ++ [nx], ys ++ [ny])
    | _ => st
  else if cmd.toUpper = 'H' then
    match numbers with
    | nx :: _ => ((nx, cy), xs ++ [nx], ys ++ [cy])
    | [] => st
  else if cmd.toUpper = 'V' then
    match numbers with
    | ny :: _ => ((cx, ny), xs ++ [cx], ys ++ [ny])
    | [] => st
  else if cmd = 'h' then
    match numbers with
    | dx :: _ => ((cx + dx, cy), xs ++ [cx + dx], ys ++ [cy])
    | [] => st
  else if cmd = 'v' then
    match numbers with
    | dy :: _ => ((cx, cy + dy), xs ++ [cx], ys ++ [cy + dy])
    | [] => st
  else st

def parse_path_bounding_box (parts : List (Char × List ℚ)) : ℚ × ℚ × ℚ × ℚ :=
  let r := parts.foldl parse_path_step ((0, 0), [], [])
  let xs := r.2.1
  let ys := r.2.2
  if xs = [] then (0, 0, 0, 0)
  else (listMin xs, listMin ys, listMax xs - listMin xs, listMax ys - listMin ys)

/-- Modelled from the spec/claim wording (§4.2): move / line /
horizontal-line / vertical-line commands in absolute (`M L H V`) and
relative (`m l h v`) form, accumulating the visited points while
tracking the current position across relative commands. -/
def spec_path_step (st : (ℚ × ℚ) × List (ℚ × ℚ)) (p : Char × List ℚ) :
    (ℚ × ℚ) × List (ℚ × ℚ) :=
  let cx := st.1.1
  let cy := st.1.2
  let pts := st.2
  match p with
  | ('M', nx :: ny :: _) => ((nx, ny), pts ++ [(nx, ny)])
  | ('L', nx :: ny :: _) => ((nx, ny), pts ++ [(nx, ny)])
  | ('m', dx :: dy :: _) => ((cx + dx, cy + dy), pts ++ [(cx + dx, cy + dy)])
  | ('l', dx :: dy :: _) => ((cx + dx, cy + dy), pts ++ [(cx + dx, cy + dy)])
  | ('H', nx :: _) => ((nx, cy), pts ++ [(nx, cy)])
  | ('h', dx :: _) => ((cx + dx, cy), pts ++ [(cx + dx, cy)])
  | ('V', ny :: _) => ((cx, ny), pts ++ [(cx, ny)])
  | ('v', dy :: _) => ((cx, cy + dy), pts ++ [(cx, cy + dy)])
  | _ => st

/-- Bounding box of the visited point set, per the spec wording. -/
def spec_path_bbox (parts : List (Char × List ℚ)) : ℚ × ℚ × ℚ × ℚ :=
  let r := parts.foldl spec_path_step ((0, 0), [])
  let pts := r.2
  if pts = [] then (0, 0, 0, 0)
  else
    let xs := pts.map Prod.fst
    let ys := pts.map Prod.snd
    (listMin xs, listMin ys, listMax xs - listMin xs, listMax ys - listMin ys)


/-- Modelled from the spec wording (§4.1, claim C3): the multiplier color
is `silver` when the value is strictly less than 1 or an exact integer,
`grey` otherwise. -/
def spec_multiplier (ohms : ℚ) : String :=
  if ohms < 1 ∨ ohms.den = 1 then "silver" else "grey"

/-! ## Helper lemmas -/

lemma ratFloor_nonneg {q : ℚ} (h : 0 ≤ q) : 0 ≤ ratFloor q := by
  unfold ratFloor
  exact Int.fdiv_nonneg (Rat.num_nonneg.mpr h) (Int.ofNat_nonneg _)

lemma pyRound_nonneg {q : ℚ} (h : 0 ≤ q) : 0 ≤ pyRound q := by
  have hf : 0 ≤ ratFloor q := ratFloor_nonneg h
  simp only [pyRound]
  split_ifs <;> omega

lemma rat_eq_pyInt_iff (q : ℚ) : q = (pyInt q : ℚ) ↔ q.den = 1 := by
  constructor
  · intro h
    rw [h]
    exact Rat.den_intCast _
  · intro h
    have h2 : (q.num : ℚ) = q := Rat.coe_int_num_of_den_eq_one h
    simp only [pyInt, h, Nat.cast_one, Int.tdiv_one]
    exact h2.symm

lemma multiplier_eq (ohms : ℚ) :
    (if ohms < 1 then "silver" else if ohms = (pyInt ohms : ℚ) then "silver" else "grey")
      = spec_multiplier ohms := by
  unfold spec_multiplier
  by_cases h1 : ohms < 1
  · rw [if_pos h1, if_pos (Or.inl h1)]
  · by_cases h2 : ohms.den = 1
    · rw [if_neg h1, if_pos ((rat_eq_pyInt_iff ohms).mpr h2), if_pos (Or.inr h2)]
    · have h3 : ¬ ohms = (pyInt ohms : ℚ) := fun hh => h2 ((rat_eq_pyInt_iff ohms).mp hh)
      rw [if_neg h1, if_neg h3, if_neg (not_or.mpr ⟨h1, h2⟩)]

set_option maxHeartbeats 4000000 in
set_option maxRecDepth 100000 in
lemma digits3_eq :
    ∀ n : ℕ, n < 1000 → padTo 3 (pyDigits (n : ℤ)) = [n / 100, n / 10 % 10, n % 10] := by
  decide

set_option maxHeartbeats 1000000 in
set_option maxRecDepth 100000 in
lemma digits2_eq :
    ∀ n : ℕ, n < 100 → padTo 2 (pyDigits (n : ℤ)) = [n / 10, n % 10] := by
  decide

set_option maxHeartbeats 4000000 in
set_option maxRecDepth 100000 in
lemma digits23_eq :
    ∀ n : ℕ, n < 1000 → 100 ≤ n →
      padTo 2 (pyDigits (n : ℤ)) = [n / 100, n / 10 % 10, n % 10] := by
  decide

lemma tolerance_color_default (tol : ℚ) (h1 : tol ≠ 1) (h5 : tol ≠ 5) (h10 : tol ≠ 10) :
    tolerance_color tol = "brown" := by
  unfold tolerance_color
  have e1 : (tol == (1 : ℚ)) = false := beq_eq_false_iff_ne.mpr h1
  have e5 : (tol == (5 : ℚ)) = false := beq_eq_false_iff_ne.mpr h5
  have e10 : (tol == (10 : ℚ)) = false := beq_eq_false_iff_ne.mpr h10
  simp [List.lookup, e1, e5, e10]

/-! ## Claim theorems -/

/-- Claim C8: the value formatter renders 1 MΩ, 4.7 kΩ and 100 Ω for the
inputs 1000000, 4700 and 100. -/
theorem c8_format_value_examples :
    format_value 1000000 = "1 MΩ" ∧ format_value 4700 = "4.7 kΩ" ∧
      format_value 100 = "100 Ω" := by
  decide

/-- Claim C1 (corrected): for a tolerance outside {1, 5, 10} the sub-10
encoder does not raise; `tolerance_colors.get(tolerance, "brown")`
silently substitutes brown, and the returned sequence ends with that
substituted brown tolerance band. -/
theorem c1_unknown_tolerance_defaults_to_brown (lib : ℤ → ℚ → ℕ → List String)
    (ohms tol : ℚ) (nb : ℕ) (hlt : ohms < 10)
    (h1 : tol ≠ 1) (h5 : tol ≠ 5) (h10 : tol ≠ 10) :
    (get_subohm_colors lib ohms tol nb).getLast? = some "brown" ∧
      tolerance_color tol = "brown" := by
  have htc := tolerance_color_default tol h1 h5 h10
  refine ⟨?_, htc⟩
  simp only [get_subohm_colors]
  rw [if_pos hlt]
  simp only [subohm_low, htc]
  split <;> rfl

/-- Claim C1, counterexample: at tolerance 2 (not a recognized value) the
encoder returns a normal five-color sequence with brown substituted as
the tolerance band instead of raising an error. -/
theorem c1_counterexample :
    get_subohm_colors libStub (1/2) 2 5 = ["black", "green", "black", "silver", "brown"] := by
  decide

/-- Claim C1, witness. -/
theorem c1_witness :
    ((1/2 : ℚ) < 10) ∧
      ((get_subohm_colors libStub (1/2) 2 5).getLast? = some "brown" ∧
        tolerance_color 2 = "brown") :=
  ⟨by decide, c1_unknown_tolerance_defaults_to_brown libStub (1/2) 2 5
    (by decide) (by decide) (by decide) (by decide)⟩

/-- Claim C9: for `ohms ≥ 10` the encoder hands `int(ohms)` (truncation)
to the baseline library, so any two values with the same integer part —
in particular 15.5 and 15 — are encoded identically, whatever the
library computes. -/
theorem c9_standard_path_truncates_to_int (lib : ℤ → ℚ → ℕ → List String)
    (tol : ℚ) (nb : ℕ) (ohms : ℚ) (h : 10 ≤ ohms) :
    get_subohm_colors lib ohms tol nb = lib (pyInt ohms) tol nb ∧
    (∀ x y : ℚ, 10 ≤ x → 10 ≤ y → pyInt x = pyInt y →
      get_subohm_colors lib x tol nb = get_subohm_colors lib y tol nb) ∧
    get_subohm_colors lib (31/2) tol nb = get_subohm_colors lib 15 tol nb := by
  have key : ∀ z : ℚ, 10 ≤ z → get_subohm_colors lib z tol nb = lib (pyInt z) tol nb := by
    intro z hz
    simp only [get_subohm_colors]
    rw [if_neg (not_lt.mpr hz)]
  refine ⟨key ohms h, fun x y hx hy hxy => by rw [key x hx, key y hy, hxy], ?_⟩
  rw [key _ (by decide), key _ (by decide),
    (by decide : pyInt ((31 : ℚ)/2) = 15), (by decide : pyInt ((15 : ℚ)) = 15)]

/-- Claim C9, witness. -/
theorem c9_witness :
    (10 ≤ (31/2 : ℚ)) ∧
      (get_subohm_colors libStub (31/2) 1 5 = libStub (pyInt (31/2)) 1 5 ∧
        (∀ x y : ℚ, 10 ≤ x → 10 ≤ y → pyInt x = pyInt y →
          get_subohm_colors libStub x 1 5 = get_subohm_colors libStub y 1 5) ∧
        get_subohm_colors libStub (31/2) 1 5 = get_subohm_colors libStub 15 1 5) :=
  ⟨by decide, c9_standard_path_truncates_to_int libStub 1 5 (31/2) (by decide)⟩

/-- Claim C7: grid placement follows the contract
`x = marginLeft + (index mod columns) * cellSpacingX`,
`y = marginTop + (index div columns) * cellSpacingY`; the source's
per-index computation agrees with it at the source's constants, and
`k ↦ (k div columns, k mod columns)` is a bijection onto pairs whose
column is below `columns`. -/
theorem c7_grid_position_bijection (cols : ℕ) (hc : 0 < cols) (sx sy ml mt : ℚ) :
    (∀ k : ℕ, spec_position k cols sx sy ml mt =
      (ml + ((k % cols : ℕ) : ℚ) * sx, mt + ((k / cols : ℕ) : ℚ) * sy)) ∧
    (∀ k : ℕ, sticker_position k =
      spec_position k COLS SPACING_X SPACING_Y MARGIN_LEFT MARGIN_TOP) ∧
    (∀ j k : ℕ, j / cols = k / cols → j % cols = k % cols → j = k) ∧
    (∀ r c : ℕ, c < cols → (c + r * cols) / cols = r ∧ (c + r * cols) % cols = c) := by
  refine ⟨fun k => rfl, fun k => rfl, ?_, ?_⟩
  · intro j k h1 h2
    have hj := Nat.div_add_mod j cols
    have hk := Nat.div_add_mod k cols
    rw [← hj, ← hk, h1, h2]
  · intro r c hlt
    constructor
    · rw [Nat.mul_comm, Nat.add_mul_div_left c r hc, Nat.div_eq_of_lt hlt, Nat.zero_add]
    · rw [Nat.add_mul_mod_self_right, Nat.mod_eq_of_lt hlt]

/-- Claim C7, witness. -/
theorem c7_witness :
    0 < 5 ∧
      ((∀ k : ℕ, spec_position k 5 26 15 0 0 =
        (0 + ((k % 5 : ℕ) : ℚ) * 26, 0 + ((k / 5 : ℕ) : ℚ) * 15)) ∧
      (∀ k : ℕ, sticker_position k =
        spec_position k COLS SPACING_X SPACING_Y MARGIN_LEFT MARGIN_TOP) ∧
      (∀ j k : ℕ, j / 5 = k / 5 → j % 5 = k % 5 → j = k) ∧
      (∀ r c : ℕ, c < 5 → (c + r * 5) / 5 = r ∧ (c + r * 5) % 5 = c)) :=
  ⟨by decide, c7_grid_position_bijection 5 (by decide) 26 15 0 0⟩

/-- Claim C2 (code bug): `uniquify_ids` is invoked on each cloned child
but never rewrites that child's own `id`, so with two input values and a
template child carrying id `r1`, the output document holds the string
`r1` twice — identifiers are neither all rewritten nor unique. -/
theorem c2_duplicate_ids_in_generated_document :
    (collectIds demoDoc).count "r1" = 2 ∧ ¬ (collectIds demoDoc).Nodup := by
  decide

/-- Claim C3: for sub-10 values the encoder multiplies by 100, rounds to
the nearest integer, uses its decimal digits zero-padded to
`bandCount - 2` as the digit bands, and picks the multiplier color silver
exactly when the value is below 1 or an exact integer, grey otherwise;
in particular `encode(0.33, 1, 5)` and `encode(1.5, 1, 5)` give the
claimed sequences.  (The hypotheses restrict to centiunit values that fit
the digit bands; the overflow region is claim C4's subject.) -/
theorem c3_subohm_encoding (lib : ℤ → ℚ → ℕ → List String) (ohms tol : ℚ)
    (h0 : 0 < ohms) (h10 : ohms < 10) (hfit : pyRound (ohms * 100) < 1000) :
    (get_subohm_colors lib ohms tol 5 =
      [digit_colors.getD ((pyRound (ohms * 100)).toNat / 100) "",
       digit_colors.getD ((pyRound (ohms * 100)).toNat / 10 % 10) "",
       digit_colors.getD ((pyRound (ohms * 100)).toNat % 10) "",
       spec_multiplier ohms, tolerance_color tol]) ∧
    (pyRound (ohms * 100) < 100 →
      get_subohm_colors lib ohms tol 4 =
        [digit_colors.getD ((pyRound (ohms * 100)).toNat / 10) "",
         digit_colors.getD ((pyRound (ohms * 100)).toNat % 10) "",
         spec_multiplier ohms, tolerance_color tol]) ∧
    get_subohm_colors lib (33/100) 1 5 = ["black", "orange", "orange", "silver", "brown"] ∧
    get_subohm_colors lib (3/2) 1 5 = ["brown", "green", "black", "grey", "brown"] := by
  have hnn : 0 ≤ pyRound (ohms * 100) := pyRound_nonneg (by positivity)
  have hcast : (((pyRound (ohms * 100)).toNat : ℤ)) = pyRound (ohms * 100) :=
    Int.toNat_of_nonneg hnn
  have hlt : (pyRound (ohms * 100)).toNat < 1000 := (Int.toNat_lt' (by norm_num)).mpr hfit
  have hdig : pyDigits (pyRound (ohms * 100)) =
      pyDigits (((pyRound (ohms * 100)).toNat : ℤ)) := by rw [hcast]
  refine ⟨?_, ?_, ?_, ?_⟩
  · have key : subohm_low ohms tol 5 =
        [digit_colors.getD ((padTo 3 (pyDigits (pyRound (ohms * 100)))).getD 0 0) "",
         digit_colors.getD ((padTo 3 (pyDigits (pyRound (ohms * 100)))).getD 1 0) "",
         digit_colors.getD ((padTo 3 (pyDigits (pyRound (ohms * 100)))).getD 2 0) "",
         (if ohms < 1 then "silver" else if ohms = (pyInt ohms : ℚ) then "silver" else "grey"),
         tolerance_color tol] := rfl
    simp only [get_subohm_colors]
    rw [if_pos h10, key, hdig, digits3_eq _ hlt, multiplier_eq]
    rfl
  · intro h100
    have hlt2 : (pyRound (ohms * 100)).toNat < 100 := (Int.toNat_lt' (by norm_num)).mpr h100
    have key : subohm_low ohms tol 4 =
        [digit_colors.getD ((padTo 2 (pyDigits (pyRound (ohms * 100)))).getD 0 0) "",
         digit_colors.getD ((padTo 2 (pyDigits (pyRound (ohms * 100)))).getD 1 0) "",
         (if ohms < 1 then "silver" else if ohms = (pyInt ohms : ℚ) then "silver" else "grey"),
         tolerance_color tol] := rfl
    simp only [get_subohm_colors]
    rw [if_pos h10, key, hdig, digits2_eq _ hlt2, multiplier_eq]
    rfl
  · simp only [get_subohm_colors]
    rw [if_pos (by decide : (33/100 : ℚ) < 10)]
    decide
  · simp only [get_subohm_colors]
    rw [if_pos (by decide : (3/2 : ℚ) < 10)]
    decide

/-- Claim C3, witness. -/
theorem c3_witness :
    (0 : ℚ) < 33/100 ∧ (33/100 : ℚ) < 10 ∧ pyRound ((33/100 : ℚ) * 100) < 1000 ∧
      ((get_subohm_colors libStub (33/100) 1 5 =
        [digit_colors.getD ((pyRound ((33/100 : ℚ) * 100)).toNat / 100) "",
         digit_colors.getD ((pyRound ((33/100 : ℚ) * 100)).toNat / 10 % 10) "",
         digit_colors.getD ((pyRound ((33/100 : ℚ) * 100)).toNat % 10) "",
         spec_multiplier (33/100), tolerance_color 1]) ∧
      (pyRound ((33/100 : ℚ) * 100) < 100 →
        get_subohm_colors libStub (33/100) 1 4 =
          [digit_colors.getD ((pyRound ((33/100 : ℚ) * 100)).toNat / 10) "",
           digit_colors.getD ((pyRound ((33/100 : ℚ) * 100)).toNat % 10) "",
           spec_multiplier (33/100), tolerance_color 1]) ∧
      get_subohm_colors libStub (33/100) 1 5 =
        ["black", "orange", "orange", "silver", "brown"] ∧
      get_subohm_colors libStub (3/2) 1 5 =
        ["brown", "green", "black", "grey", "brown"]) :=
  ⟨by decide, by decide, by decide,
    c3_subohm_encoding libStub (33/100) 1 (by decide) (by decide) (by decide)⟩

/-- Claim C4 (corrected): a sub-10 value with more significant centiunit
digits than the band count encodes is NOT rejected; the encoder silently
keeps only the leading `bandCount - 2` digits.  For a value whose
centiunit integer has three digits and a band count of 4, the returned
sequence carries only the two leading digits — the ones digit
(`centiunits % 10`) is dropped without any error. -/
theorem c4_silent_truncation (lib : ℤ → ℚ → ℕ → List String) (ohms tol : ℚ)
    (h0 : 0 < ohms) (h10 : ohms < 10)
    (hbig : 100 ≤ pyRound (ohms * 100)) (hfit : pyRound (ohms * 100) < 1000) :
    get_subohm_colors lib ohms tol 4 =
      [digit_colors.getD ((pyRound (ohms * 100)).toNat / 100) "",
       digit_colors.getD ((pyRound (ohms * 100)).toNat / 10 % 10) "",
       spec_multiplier ohms, tolerance_color tol] := by
  have hnn : 0 ≤ pyRound (ohms * 100) := pyRound_nonneg (by positivity)
  have hcast : (((pyRound (ohms * 100)).toNat : ℤ)) = pyRound (ohms * 100) :=
    Int.toNat_of_nonneg hnn
  have hlt : (pyRound (ohms * 100)).toNat < 1000 := (Int.toNat_lt' (by norm_num)).mpr hfit
  have hge : 100 ≤ (pyRound (ohms * 100)).toNat := by omega
  have hdig : pyDigits (pyRound (ohms * 100)) =
      pyDigits (((pyRound (ohms * 100)).toNat : ℤ)) := by rw [hcast]
  have key : subohm_low ohms tol 4 =
      [digit_colors.getD ((padTo 2 (pyDigits (pyRound (ohms * 100)))).getD 0 0) "",
       digit_colors.getD ((padTo 2 (pyDigits (pyRound (ohms * 100)))).getD 1 0) "",
       (if ohms < 1 then "silver" else if ohms = (pyInt ohms : ℚ) then "silver" else "grey"),
       tolerance_color tol] := rfl
  simp only [get_subohm_colors]
  rw [if_pos h10, key, hdig, digits23_eq _ hlt hge, multiplier_eq]
  rfl

/-- Claim C4, counterexample: 1.55 at 4 bands (155 centiunits, three
significant digits against two digit bands) returns a normal sequence
keeping digits 1 and 5 and dropping the trailing 5, instead of raising. -/
theorem c4_counterexample :
    get_subohm_colors libStub (155/100) 5 4 = ["brown", "green", "grey", "gold"] ∧
      pyDigits (pyRound ((155/100 : ℚ) * 100)) = [1, 5, 5] := by
  decide

/-- Claim C4, witness. -/
theorem c4_witness :
    (0 : ℚ) < 155/100 ∧ (155/100 : ℚ) < 10 ∧ 100 ≤ pyRound ((155/100 : ℚ) * 100) ∧
      pyRound ((155/100 : ℚ) * 100) < 1000 ∧
      get_subohm_colors libStub (155/100) 5 4 =
        [digit_colors.getD ((pyRound ((155/100 : ℚ) * 100)).toNat / 100) "",
         digit_colors.getD ((pyRound ((155/100 : ℚ) * 100)).toNat / 10 % 10) "",
         spec_multiplier (155/100), tolerance_color 5] :=
  ⟨by decide, by decide, by decide, by decide,
    c4_silent_truncation libStub (155/100) 5 (by decide) (by decide) (by decide) (by decide)⟩

lemma c5_step_abs (c : Char) (hc : c = 'M' ∨ c = 'L' ∨ c = 'H' ∨ c = 'V' ∨ c = 'Z')
    (ns : List ℚ) (cx cy : ℚ) (pts : List (ℚ × ℚ)) :
    parse_path_step ((cx, cy), pts.map Prod.fst, pts.map Prod.snd) (c, ns) =
      ((spec_path_step ((cx, cy), pts) (c, ns)).1,
       (spec_path_step ((cx, cy), pts) (c, ns)).2.map Prod.fst,
       (spec_path_step ((cx, cy), pts) (c, ns)).2.map Prod.snd) := by
  rcases hc with rfl | rfl | rfl | rfl | rfl
  · rcases ns with _ | ⟨x, _ | ⟨y, rest⟩⟩
    · rfl
    · rfl
    · simp [parse_path_step, spec_path_step, List.map_append]
  · rcases ns with _ | ⟨x, _ | ⟨y, rest⟩⟩
    · rfl
    · rfl
    · simp [parse_path_step, spec_path_step, List.map_append]
  · rcases ns with _ | ⟨x, rest⟩
    · rfl
    · simp [parse_path_step, spec_path_step, List.map_append]
  · rcases ns with _ | ⟨x, rest⟩
    · rfl
    · simp [parse_path_step, spec_path_step, List.map_append]
  · rfl

lemma c5_fold_abs (parts : List (Char × List ℚ))
    (h : ∀ p ∈ parts, p.1 = 'M' ∨ p.1 = 'L' ∨ p.1 = 'H' ∨ p.1 = 'V' ∨ p.1 = 'Z') :
    ∀ (cx cy : ℚ) (pts : List (ℚ × ℚ)),
      parts.foldl parse_path_step ((cx, cy), pts.map Prod.fst, pts.map Prod.snd) =
        ((parts.foldl spec_path_step ((cx, cy), pts)).1,
         (parts.foldl spec_path_step ((cx, cy), pts)).2.map Prod.fst,
         (parts.foldl spec_path_step ((cx, cy), pts)).2.map Prod.snd) := by
  induction parts with
  | nil => intro cx cy pts; rfl
  | cons p rest ih =>
      intro cx cy pts
      obtain ⟨c, ns⟩ := p
      simp only [List.foldl_cons]
      rw [c5_step_abs c (h (c, ns) (List.mem_cons_self _ _)) ns cx cy pts]
      rcases hq : spec_path_step ((cx, cy), pts) (c, ns) with ⟨⟨cx2, cy2⟩, pts2⟩
      exact ih (fun q hq2 => h q (List.mem_cons_of_mem _ hq2)) cx2 cy2 pts2

/-- Claim C5 (corrected): the path parser reads every coordinate as an
absolute position — the lowercase (relative) command letters are
captured by the `cmd.upper()` comparisons, so the relative-tracking arms
are unreachable and `m`/`l`/`h`/`v` behave exactly like `M`/`L`/`H`/`V`
on the raw numbers; only for paths whose (non-`z`) commands are all
absolute does the computed box equal the bounding box of the visited
point set described by the spec. -/
theorem c5_absolute_only_semantics :
    (∀ (st : (ℚ × ℚ) × List ℚ × List ℚ) (ns : List ℚ),
      parse_path_step st ('m', ns) = parse_path_step st ('M', ns) ∧
      parse_path_step st ('l', ns) = parse_path_step st ('L', ns) ∧
      parse_path_step st ('h', ns) = parse_path_step st ('H', ns) ∧
      parse_path_step st ('v', ns) = parse_path_step st ('V', ns) ∧
      parse_path_step st ('z', ns) = parse_path_step st ('Z', ns)) ∧
    (∀ parts : List (Char × List ℚ),
      (∀ p ∈ parts, p.1 = 'M' ∨ p.1 = 'L' ∨ p.1 = 'H' ∨ p.1 = 'V' ∨ p.1 = 'Z') →
      parse_path_bounding_box parts = spec_path_bbox parts) := by
  constructor
  · intro st ns
    exact ⟨rfl, rfl, rfl, rfl, rfl⟩
  · intro parts h
    have key := c5_fold_abs parts h 0 0 []
    simp only [List.map_nil] at key
    simp only [parse_path_bounding_box, spec_path_bbox]
    rw [key]
    by_cases hp : (parts.foldl spec_path_step ((0, 0), [])).2 = []
    · simp [hp]
    · rw [if_neg hp, if_neg (fun hm => hp (List.map_eq_nil_iff.mp hm))]

/-- Claim C5, counterexample: the path `M 2,2 h 1` (relative h from x=2)
is boxed as if `h 1` were the absolute `H 1`, yielding (1, 2, 1, 0); its
absolute equivalent `M 2,2 H 3` — which the claim says must agree —
yields (2, 2, 1, 0), the box of the actually visited points. -/
theorem c5_counterexample :
    parse_path_bounding_box [('M', [2, 2]), ('h', [1])] = (1, 2, 1, 0) ∧
    parse_path_bounding_box [('M', [2, 2]), ('H', [3])] = (2, 2, 1, 0) ∧
    spec_path_bbox [('M', [2, 2]), ('h', [1])] = (2, 2, 1, 0) := by
  decide

/-- Claim C5, witness. -/
theorem c5_witness :
    (∀ p ∈ [('M', ([2, 2] : List ℚ)), ('H', [3])],
      p.1 = 'M' ∨ p.1 = 'L' ∨ p.1 = 'H' ∨ p.1 = 'V' ∨ p.1 = 'Z') ∧
    parse_path_bounding_box [('M', ([2, 2] : List ℚ)), ('H', [3])] =
      spec_path_bbox [('M', [2, 2]), ('H', [3])] :=
  ⟨by decide, c5_absolute_only_semantics.2 _ (by decide)⟩

lemma lookup_setA (k v k₂ : String) (hk : k ≠ k₂) :
    ∀ a : List (String × String), (setA k v a).lookup k₂ = a.lookup k₂ := by
  intro a
  induction a with
  | nil => simp [setA, List.lookup, beq_eq_false_iff_ne.mpr (Ne.symm hk)]
  | cons p rest ih =>
      obtain ⟨k3, v3⟩ := p
      by_cases h3 : k3 = k
      · subst h3
        simp [setA, List.lookup, beq_eq_false_iff_ne.mpr (Ne.symm hk)]
      · simp only [setA, if_neg h3]
        cases hc : (k₂ == k3) <;> simp [List.lookup, hc, ih]

lemma attr_setAttr_ne (e : Elem) (k v k₂ : String) (hk : k ≠ k₂) :
    (e.setAttr k v).attr k₂ = e.attr k₂ := by
  cases e
  simp [Elem.setAttr, Elem.attr, Elem.attribOf, lookup_setA k v k₂ hk]

lemma get_label_fillIfStyled (e : Elem) (hex : String) :
    get_label (fillIfStyled e hex) = get_label e := by
  unfold fillIfStyled
  cases h : e.attr "style" with
  | none => rfl
  | some s => exact attr_setAttr_ne e "style" _ _ (by decide)

lemma get_label_tolRewrite (e : Elem) (tt : String) :
    get_label (rewrite_first_tspan_text e tt) = get_label e := by
  unfold rewrite_first_tspan_text
  cases e with
  | mk t a tx tl cs =>
      simp only [tolVisit]
      split <;> rfl

lemma get_label_tvVisit (v vt : String) (f : ℕ) (e : Elem) (go : Bool) :
    get_label (tvVisit v vt f e go).1 = get_label e := by
  cases f with
  | zero => simp only [tvVisit]
  | succ f =>
      cases go with
      | false =>
          cases e
          simp only [tvVisit]
      | true =>
          cases e with
          | mk t a tx tl cs =>
              simp only [tvVisit]
              by_cases ht : t = TSPAN_TAG
              · rw [if_pos ht]
                by_cases hx : (a.lookup "x").isSome
                · by_cases hn : textMatchesNumeric tx = true
                  · simp only [if_pos hx, if_pos hn]
                    exact attr_setAttr_ne (.mk t a tx tl cs) "x" v _ (by decide)
                  · simp only [if_pos hx, if_neg hn]
                    exact attr_setAttr_ne (.mk t a tx tl cs) "x" v _ (by decide)
                · by_cases hn : textMatchesNumeric tx = true
                  · simp only [if_neg hx, if_pos hn]
                    rfl
                  · simp only [if_neg hx, if_neg hn]
                    rfl
              · rw [if_neg ht]
                rfl

lemma get_label_valueRewrite (e : Elem) (vxs vt : String) :
    get_label (rewrite_value_text e vxs vt) = get_label e := by
  unfold rewrite_value_text
  rw [get_label_tvVisit]
  exact attr_setAttr_ne e "x" vxs _ (by decide)

lemma get_label_uniquify (e : Elem) (pfx : String) :
    get_label (uniquify_ids e pfx) = get_label e := by
  cases e
  rfl

lemma attribOf_uniquify (e : Elem) (pfx : String) :
    (uniquify_ids e pfx).attribOf = e.attribOf := by
  cases e
  rfl

lemma process_child_label {hexes : List String} {nb : ℕ} {tol : ℚ} {vt vrx : String}
    {c n : Elem} (h : process_child hexes nb tol vt vrx c = some n) :
    get_label n = get_label c := by
  simp only [process_child, deep_copy_element] at h
  split at h
  · injection h with h2; subst h2; exact get_label_fillIfStyled _ _
  · split at h
    · injection h with h2; subst h2; exact get_label_fillIfStyled _ _
    · split at h
      · injection h with h2; subst h2; exact get_label_fillIfStyled _ _
      · split at h
        · split at h
          · exact absurd h (by simp)
          · injection h with h2; subst h2; exact get_label_fillIfStyled _ _
        · split at h
          · split at h
            · injection h with h2; subst h2
              split
              · exact get_label_fillIfStyled _ _
              · rfl
            · injection h with h2; subst h2
              split
              · exact get_label_fillIfStyled _ _
              · rfl
          · split at h
            · injection h with h2; subst h2; exact get_label_tolRewrite _ _
            · split at h
              · injection h with h2; subst h2; exact get_label_valueRewrite _ _ _
              · injection h with h2; subst h2; rfl

lemma mem_instantiate {hexes : List String} {nb : ℕ} {tol : ℚ}
    {vt vrx pfx : String} {children : List Elem} {n : Elem} :
    n ∈ instantiate_children hexes nb tol vt vrx pfx children ↔
      ∃ c ∈ children, ∃ m, process_child hexes nb tol vt vrx c = some m ∧
        n = uniquify_ids m pfx := by
  unfold instantiate_children
  simp only [List.mem_filterMap, Option.map_eq_some']
  constructor
  · rintro ⟨c, hc, m, hm, he⟩
    exact ⟨c, hc, m, hm, he.symm⟩
  · rintro ⟨c, hc, m, hm, he⟩
    exact ⟨c, hc, m, hm, he.symm⟩

/-- Claim C6: at 4 bands the `t_color_4` slot is skipped outright — no
node labeled `t_color_4` reaches the instantiated subtree — and the
tolerance slot's fill is drawn from `colors[3]` (the last element of the
4-color sequence), not `colors[4]`. -/
theorem c6_band4_skip_and_tolerance_slot (children : List Elem) (hexes : List String)
    (tol : ℚ) (vt vrx pfx : String) (hlen : 3 < hexes.length) :
    (∀ n ∈ instantiate_children hexes 4 tol vt vrx pfx children,
        get_label n ≠ some "t_color_4") ∧
    (∀ c : Elem, get_label c = some "t_color_4" →
        process_child hexes 4 tol vt vrx c = none) ∧
    (∀ (c : Elem) (s : String), get_label c = some "t_color_tolerance" →
        c.attr "style" = some s →
        process_child hexes 4 tol vt vrx c =
          some (c.setAttr "style" (set_rect_fill s (hexes.getD 3 "")))) := by
  have skip : ∀ c : Elem, get_label c = some "t_color_4" →
      process_child hexes 4 tol vt vrx c = none := by
    intro c hc
    simp only [process_child, deep_copy_element, hc]
    rw [if_pos (show True ∧ 3 < hexes.length from ⟨trivial, hlen⟩), if_pos trivial,
      if_neg (by rintro ⟨hx | hx, -⟩ <;> exact absurd hx (by decide)),
      if_neg (by rintro ⟨hx, -⟩; exact absurd hx (by decide)),
      if_neg (by rintro ⟨hx, -⟩; exact absurd hx (by decide))]
  refine ⟨?_, skip, ?_⟩
  · intro n hn
    rw [mem_instantiate] at hn
    obtain ⟨c, hc, m, hm, rfl⟩ := hn
    rw [get_label_uniquify, process_child_label hm]
    intro hlab
    rw [skip c hlab] at hm
    exact Option.noConfusion hm
  · intro c s hc hs
    simp only [process_child, deep_copy_element, hc]
    rw [if_neg (by rintro ⟨hx | hx, -⟩ <;> exact absurd hx (by decide)),
      if_neg (by rintro ⟨hx, -⟩; exact absurd hx (by decide)),
      if_neg (by rintro ⟨hx, -⟩; exact absurd hx (by decide)),
      if_neg (by rintro ⟨hx, -⟩; exact absurd hx (by decide)),
      if_pos trivial, if_pos hlen]
    unfold fillIfStyled
    rw [hs]
    rw [if_pos trivial]

/-- Claim C6, witness. -/
theorem c6_witness :
    3 < (["000000", "00c400", "828282", "decd87"] : List String).length ∧
    ((∀ n ∈ instantiate_children ["000000", "00c400", "828282", "decd87"] 4 1 "1 Ω"
        "28.0" "sticker0"
        [Elem.mk "rect" [(INKSCAPE_LABEL_KEY, "t_color_tolerance"),
          ("style", "fill:#000000")] none none [],
         Elem.mk "rect" [(INKSCAPE_LABEL_KEY, "t_color_4")] none none []],
        get_label n ≠ some "t_color_4") ∧
    (∀ c : Elem, get_label c = some "t_color_4" →
        process_child ["000000", "00c400", "828282", "decd87"] 4 1 "1 Ω" "28.0" c = none) ∧
    (∀ (c : Elem) (s : String), get_label c = some "t_color_tolerance" →
        c.attr "style" = some s →
        process_child ["000000", "00c400", "828282", "decd87"] 4 1 "1 Ω" "28.0" c =
          some (c.setAttr "style"
            (set_rect_fill s ((["000000", "00c400", "828282", "decd87"] : List String).getD 3 ""))))) :=
  ⟨by decide, c6_band4_skip_and_tolerance_slot _ _ 1 "1 Ω" "28.0" "sticker0" (by decide)⟩

/-- Claim C10 (corrected): a style-less band node is passed through with
its own attributes untouched and still appended — EXCEPT the `t_color_4`
slot under 4 bands, which the instantiator drops entirely (style or not),
so that one band node is absent rather than kept with the template's
appearance. -/
theorem c10_styleless_band_kept_unchanged (hexes : List String) (nb : ℕ) (tol : ℚ)
    (vt vrx pfx : String) (c : Elem) (children : List Elem)
    (hstyle : c.attr "style" = none)
    (hband : get_label c = some "t_color_1" ∨ get_label c = some "r_color_1" ∨
      get_label c = some "t_color_2" ∨ get_label c = some "t_color_3" ∨
      get_label c = some "t_color_4" ∨ get_label c = some "t_color_tolerance")
    (hexc : ¬(get_label c = some "t_color_4" ∧ nb = 4 ∧ 3 < hexes.length)) :
    process_child hexes nb tol vt vrx c = some c ∧
    (c ∈ children →
      uniquify_ids c pfx ∈ instantiate_children hexes nb tol vt vrx pfx children) ∧
    (uniquify_ids c pfx).attribOf = c.attribOf := by
  have hfill : ∀ hex, fillIfStyled c hex = c := by
    intro hex
    unfold fillIfStyled
    rw [hstyle]
  have main : process_child hexes nb tol vt vrx c = some c := by
    rcases hband with hc | hc | hc | hc | hc | hc
    · simp only [process_child, deep_copy_element]
      rw [hc]
      by_cases h0 : 0 < hexes.length
      · rw [if_pos ⟨Or.inl rfl, h0⟩, hfill]
      · rw [if_neg (fun hh => h0 hh.2),
          if_neg (fun hh => absurd hh.1 (by decide)),
          if_neg (fun hh => absurd hh.1 (by decide)),
          if_neg (fun hh => absurd hh.1 (by decide)),
          if_neg (by decide), if_neg (by decide), if_neg (by decide)]
    · simp only [process_child, deep_copy_element]
      rw [hc]
      by_cases h0 : 0 < hexes.length
      · rw [if_pos ⟨Or.inr rfl, h0⟩, hfill]
      · rw [if_neg (fun hh => h0 hh.2),
          if_neg (fun hh => absurd hh.1 (by decide)),
          if_neg (fun hh => absurd hh.1 (by decide)),
          if_neg (fun hh => absurd hh.1 (by decide)),
          if_neg (by decide), if_neg (by decide), if_neg (by decide)]
    · simp only [process_child, deep_copy_element]
      rw [hc, if_neg (fun hh => by rcases hh.1 with h | h <;> exact absurd h (by decide))]
      by_cases h1 : 1 < hexes.length
      · rw [if_pos ⟨rfl, h1⟩, hfill]
      · rw [if_neg (fun hh => h1 hh.2),
          if_neg (fun hh => absurd hh.1 (by decide)),
          if_neg (fun hh => absurd hh.1 (by decide)),
          if_neg (by decide), if_neg (by decide), if_neg (by decide)]
    · simp only [process_child, deep_copy_element]
      rw [hc, if_neg (fun hh => by rcases hh.1 with h | h <;> exact absurd h (by decide)),
        if_neg (fun hh => absurd hh.1 (by decide))]
      by_cases h2 : 2 < hexes.length
      · rw [if_pos ⟨rfl, h2⟩, hfill]
      · rw [if_neg (fun hh => h2 hh.2),
          if_neg (fun hh => absurd hh.1 (by decide)),
          if_neg (by decide), if_neg (by decide), if_neg (by decide)]
    · have hnc : ¬(nb = 4 ∧ 3 < hexes.length) := fun hh => hexc ⟨hc, hh⟩
      simp only [process_child, deep_copy_element]
      rw [hc, if_neg (fun hh => by rcases hh.1 with h | h <;> exact absurd h (by decide)),
        if_neg (fun hh => absurd hh.1 (by decide)),
        if_neg (fun hh => absurd hh.1 (by decide))]
      by_cases h3 : 3 < hexes.length
      · rw [if_pos ⟨rfl, h3⟩, if_neg (fun h4 => hnc ⟨h4, h3⟩), hfill]
      · rw [if_neg (fun hh => h3 hh.2),
          if_neg (by decide), if_neg (by decide), if_neg (by decide)]
    · simp only [process_child, deep_copy_element]
      rw [hc, if_neg (fun hh => by rcases hh.1 with h | h <;> exact absurd h (by decide)),
        if_neg (fun hh => absurd hh.1 (by decide)),
        if_neg (fun hh => absurd hh.1 (by decide)),
        if_neg (fun hh => absurd hh.1 (by decide)),
        if_pos rfl]
      by_cases h4 : nb = 4
      · rw [if_pos h4]
        by_cases h3 : 3 < hexes.length
        · rw [if_pos h3, hfill]
        · rw [if_neg h3]
      · rw [if_neg h4]
        by_cases h5 : 4 < hexes.length
        · rw [if_pos h5, hfill]
        · rw [if_neg h5]
  refine ⟨main, ?_, attribOf_uniquify c pfx⟩
  intro hmem
  rw [mem_instantiate]
  exact ⟨c, hmem, c, main, rfl⟩

/-- Claim C10, counterexample: a `t_color_4`-labeled node carrying no
style attribute is dropped from the subtree entirely when the band count
is 4, instead of being kept with its template appearance. -/
theorem c10_counterexample :
    process_child ["000000", "00c400", "828282", "decd87"] 4 1 "1 Ω" "28.0"
      (Elem.mk "rect" [(INKSCAPE_LABEL_KEY, "t_color_4")] none none []) = none ∧
    instantiate_children ["000000", "00c400", "828282", "decd87"] 4 1 "1 Ω" "28.0"
      "sticker0" [Elem.mk "rect" [(INKSCAPE_LABEL_KEY, "t_color_4")] none none []] = [] :=
  ⟨rfl, rfl⟩

/-- Claim C10, witness. -/
theorem c10_witness :
    (Elem.mk "rect" [(INKSCAPE_LABEL_KEY, "t_color_2")] none none []).attr "style" = none ∧
    (process_child ["000000", "00c400", "828282", "decd87"] 4 1 "1 Ω" "28.0"
        (Elem.mk "rect" [(INKSCAPE_LABEL_KEY, "t_color_2")] none none []) =
      some (Elem.mk "rect" [(INKSCAPE_LABEL_KEY, "t_color_2")] none none []) ∧
    (Elem.mk "rect" [(INKSCAPE_LABEL_KEY, "t_color_2")] none none [] ∈
        [Elem.mk "rect" [(INKSCAPE_LABEL_KEY, "t_color_2")] none none []] →
      uniquify_ids (Elem.mk "rect" [(INKSCAPE_LABEL_KEY, "t_color_2")] none none []) "sticker0" ∈
        instantiate_children ["000000", "00c400", "828282", "decd87"] 4 1 "1 Ω" "28.0"
          "sticker0" [Elem.mk "rect" [(INKSCAPE_LABEL_KEY, "t_color_2")] none none []]) ∧
    (uniquify_ids (Elem.mk "rect" [(INKSCAPE_LABEL_KEY, "t_color_2")] none none [])
        "sticker0").attribOf =
      (Elem.mk "rect" [(INKSCAPE_LABEL_KEY, "t_color_2")] none none []).attribOf) :=
  ⟨rfl, c10_styleless_band_kept_unchanged ["000000", "00c400", "828282", "decd87"] 4 1
    "1 Ω" "28.0" "sticker0" _ _ rfl (Or.inr (Or.inr (Or.inl rfl))) (by decide)⟩
